import Mathlib

/-!
Shallow embedding of the conversation-memory and orchestrator core of the
system-design-interviewer-coach backend
(`backend/app/agents/memory/conversation_memory.py` and
`backend/app/agents/orchestrator/main_orchestrator.py`).

Python dictionaries keyed by session id are embedded as association lists
over `Nat` keys; `datetime` values are embedded as `Int` seconds; Python
`Dict[str, Any]` evaluation payloads are embedded as `List (String × Int)`
score maps.  Python truthiness and the negative-index slicing semantics of
`l[:-k]` / `l[-k:]` (including the `k = 0` corner where `l[:-0] = []` and
`l[-0:] = l`) are modelled explicitly by the `py*` / `slice*` helpers below.
-/

namespace SDCoach

/-! ### Python-semantics helpers -/

/-- Python truthiness of an `Optional[str]`: `None` and `""` are falsy. -/
def pyTruthyStr (s : Option String) : Bool :=
  match s with
  | none => false
  | some x => x ≠ ""

/-- Python slice `l[:-k]` for a non-negative `k`.
`l[:-0]` is `l[:0] = []`; for `k ≥ 1` it is the list without its last `k`
elements. -/
def sliceToNegIdx (l : List α) (k : Nat) : List α :=
  if k = 0 then [] else l.take (l.length - k)

/-- Python slice `l[-k:]` for a non-negative `k`.
`l[-0:]` is `l[0:] = l`; for `k ≥ 1` it is the last `k` elements
(all of `l` when `k ≥ len(l)`). -/
def sliceFromNegIdx (l : List α) (k : Nat) : List α :=
  if k = 0 then l else l.drop (l.length - k)

/-- Python `list(set(xs))` on string lists: duplicates removed.  CPython's
set iteration order is unspecified; we fix the first-occurrence order. -/
def pySetList : List String → List String
  | [] => []
  | x :: xs => x :: (pySetList xs).filter (fun y => y ≠ x)

/-- Lookup in a Python dict embedded as an association list
(first entry with the key wins). -/
def dictGet (l : List (Nat × β)) (k : Nat) : Option β :=
  match l with
  | [] => none
  | (k2, v) :: rest => if k2 = k then some v else dictGet rest k

/-- Python dict assignment `d[k] = v`: replace the entry if the key is
present, append it otherwise. -/
def dictSet (l : List (Nat × β)) (k : Nat) (v : β) : List (Nat × β) :=
  match l with
  | [] => [(k, v)]
  | (k2, w) :: rest => if k2 = k then (k2, v) :: rest else (k2, w) :: dictSet rest k v

/-- Python `del d[k]` / key removal: drop every entry with the key. -/
def dictDelete (l : List (Nat × β)) (k : Nat) : List (Nat × β) :=
  l.filter (fun p => p.1 ≠ k)

/-- Embedding of `defaultdict(list)` append `d[k].append(v)`: append to the existing
entry, or create the key with a singleton list. -/
def cacheAppend (l : List (Nat × List β)) (k : Nat) (v : β) : List (Nat × List β) :=
  match l with
  | [] => [(k, [v])]
  | (k2, vs) :: rest =>
    if k2 = k then (k2, vs ++ [v]) :: rest else (k2, vs) :: cacheAppend rest k v

/-- Python `str.lower()` (written over the character list so that it
reduces inside the kernel). -/
def pyLower (s : String) : String :=
  String.mk (s.data.map Char.toLower)

/-- Contiguous-sublist test on character lists: the needle occurs as a
prefix of some suffix of the haystack. -/
def listHasSegment (needle hay : List Char) : Bool :=
  (List.range (hay.length + 1)).any (fun i => needle.isPrefixOf (hay.drop i))

/-- Python substring test `needle in hay`. -/
def pySubstr (needle hay : String) : Bool :=
  listHasSegment needle.data hay.data

/-! ### Data model (`conversation_memory.py`) -/

/-- Enum `DifficultyLevel` from `app/domain/entities/session.py`. -/
inductive DifficultyLevel where
  | beginner
  | intermediate
  | advanced
deriving DecidableEq

/-- Embedding of a `Dict[str, Any]` evaluation payload: a score map with
integral values. -/
abbrev EvalDict := List (String × Int)

/-- Python truthiness of an `Optional[Dict]` evaluation: `None` and the
empty dict are falsy. -/
def pyTruthyEval (e : Option EvalDict) : Bool :=
  match e with
  | none => false
  | some d => d ≠ []

/-- Dataclass `InteractionMemory`: a single interaction in conversation memory. -/
structure InteractionMemory where
  timestamp : Int
  question : Option String := none
  answer : Option String := none
  evaluation : Option EvalDict := none
  feedback : Option String := none
  context : Option (List (String × String)) := none
  question_type : String := "general"
  topics_covered : List String := []
deriving DecidableEq

/-- The `context_summary` dict of a `SessionMemory`: either the initial
empty dict or the dict produced by `_summarize_interactions`. -/
inductive ContextSummary where
  | empty
  | summary (summarized_interactions : Nat) (period_start period_end : Int)
      (topics_discussed : List String) (question_types : List String)
      (evaluation_count : Nat)
deriving DecidableEq

/-- Dataclass `SessionMemory`: memory for an entire interview session. -/
structure SessionMemory where
  session_id : Nat
  topic : String
  difficulty : DifficultyLevel
  start_time : Int
  interactions : List InteractionMemory
  current_question : Option String := none
  covered_topics : List String := []
  performance_trends : List EvalDict := []
  context_summary : ContextSummary := .empty
deriving DecidableEq

/-- One entry of the `performance_cache` list for a session. -/
structure PerformanceSample where
  timestamp : Int
  evaluation : EvalDict
  question_type : String
deriving DecidableEq

/-- The `ConversationMemory` store: sessions dict, configuration, and the
per-session performance cache (a `defaultdict(list)`). -/
structure ConversationMemory where
  sessions : List (Nat × SessionMemory) := []
  max_memory_hours : Int := 24
  max_interactions_per_session : Nat := 100
  performance_cache : List (Nat × List PerformanceSample) := []
deriving DecidableEq

/-! ### Memory operations -/

/-- Method `ConversationMemory.initialize_session` (renamed `init_session` here):
unconditionally assigns a fresh, empty `SessionMemory` to the id. -/
def init_session (cm : ConversationMemory) (session_id : Nat) (topic : String)
    (difficulty : DifficultyLevel) (now : Int) : ConversationMemory :=
  { cm with
    sessions := dictSet cm.sessions session_id
      { session_id := session_id
        topic := topic
        difficulty := difficulty
        start_time := now
        interactions := [] } }

/-- The keyword arguments of `ConversationMemory.add_interaction`. -/
structure AddArgs where
  question : Option String := none
  answer : Option String := none
  evaluation : Option EvalDict := none
  feedback : Option String := none
  context : Option (List (String × String)) := none
  question_type : String := "general"
  expected_topics : Option (List String) := none
  timestamp : Option Int := none
deriving DecidableEq

/-- The `InteractionMemory` built at the top of `add_interaction`:
`timestamp or datetime.utcnow()` (a datetime is always truthy, so `None`
falls back to `now`), and `topics_covered = expected_topics or []`. -/
def mkInteraction (now : Int) (a : AddArgs) : InteractionMemory :=
  { timestamp := a.timestamp.getD now
    question := a.question
    answer := a.answer
    evaluation := a.evaluation
    feedback := a.feedback
    context := a.context
    question_type := a.question_type
    topics_covered := a.expected_topics.getD [] }

/-- The covered-topics update loop of `add_interaction`: guarded by the
truthiness of `expected_topics`, each topic not yet present is appended. -/
def updateCovered (covered : List String) (expected_topics : Option (List String)) :
    List String :=
  match expected_topics with
  | none => covered
  | some ts =>
    if ts = [] then covered
    else ts.foldl (fun acc t => if t ∈ acc then acc else acc ++ [t]) covered

/-- Method `ConversationMemory._summarize_interactions`: summary dict of a list of
older interactions (`{}` on the empty list). -/
def summarizeInteractions (interactions : List InteractionMemory) : ContextSummary :=
  match interactions with
  | [] => .empty
  | first :: rest =>
    let topics_discussed := (first :: rest).foldl
      (fun acc i => if i.topics_covered ≠ [] then acc ++ i.topics_covered else acc) []
    let question_types := (first :: rest).foldl
      (fun acc i => if i.question_type ≠ "" then acc ++ [i.question_type] else acc) []
    let evaluations := (first :: rest).foldl
      (fun acc i => if pyTruthyEval i.evaluation then acc + 1 else acc) 0
    .summary (first :: rest).length first.timestamp
      (List.getLast (first :: rest) (List.cons_ne_nil first rest)).timestamp
      (pySetList topics_discussed) (pySetList question_types) evaluations

/-- Method `ConversationMemory._manage_memory_size` on one session's memory:
when the interaction count is strictly above the bound, keep only the last
`max // 2` interactions and overwrite the context summary with a summary of
the discarded ones (Python slices `[:-keep_count]` / `[-keep_count:]`). -/
def manageMemorySize (maxInteractions : Nat) (sm : SessionMemory) : SessionMemory :=
  if sm.interactions.length > maxInteractions then
    let keep_count := maxInteractions / 2
    let older_interactions := sliceToNegIdx sm.interactions keep_count
    { sm with
      context_summary := summarizeInteractions older_interactions
      interactions := sliceFromNegIdx sm.interactions keep_count }
  else sm

/-- The in-place `SessionMemory` mutations of `add_interaction` before the
memory-size management step: append the interaction, update
`current_question` when the question is truthy, and union the expected
topics into `covered_topics`. -/
def addToSession (sm : SessionMemory) (a : AddArgs) (now : Int) : SessionMemory :=
  let interaction := mkInteraction now a
  let sm1 := { sm with interactions := sm.interactions ++ [interaction] }
  let sm2 :=
    match a.question with
    | some q => if q ≠ "" then { sm1 with current_question := some q } else sm1
    | none => sm1
  { sm2 with covered_topics := updateCovered sm2.covered_topics a.expected_topics }

/-- Method `ConversationMemory.add_interaction`: raises `ValueError` for an
unknown session; otherwise appends the interaction, optionally updates
`current_question` (string truthiness) and `covered_topics`, appends a
performance sample when the evaluation is truthy, then manages memory
size. -/
def add_interaction (cm : ConversationMemory) (session_id : Nat) (a : AddArgs)
    (now : Int) : Except String ConversationMemory :=
  match dictGet cm.sessions session_id with
  | none => .error "Session not found in memory"
  | some session_memory =>
    let cache :=
      if pyTruthyEval a.evaluation then
        cacheAppend cm.performance_cache session_id
          { timestamp := (mkInteraction now a).timestamp
            evaluation := a.evaluation.getD []
            question_type := a.question_type }
      else cm.performance_cache
    .ok { cm with
      sessions := dictSet cm.sessions session_id
        (manageMemorySize cm.max_interactions_per_session
          (addToSession session_memory a now))
      performance_cache := cache }

/-- One history entry returned by `get_conversation_history`; the
`evaluation` key is present only when requested and truthy. -/
structure HistoryEntry where
  timestamp : Int
  question : Option String
  answer : Option String
  feedback : Option String
  question_type : String
  topics_covered : List String
  evaluation : Option EvalDict := none
deriving DecidableEq

/-- The entry built for one interaction by `get_conversation_history`. -/
def historyEntryOf (include_evaluations : Bool) (i : InteractionMemory) : HistoryEntry :=
  { timestamp := i.timestamp
    question := i.question
    answer := i.answer
    feedback := i.feedback
    question_type := i.question_type
    topics_covered := i.topics_covered
    evaluation :=
      if include_evaluations && pyTruthyEval i.evaluation then i.evaluation else none }

/-- Method `ConversationMemory.get_conversation_history`: returns `[]` for an
unknown session; truncates to the last `limit` interactions only when
`limit` is truthy (`None` and `0` are falsy). -/
def get_conversation_history (cm : ConversationMemory) (session_id : Nat)
    (limit : Option Nat) (include_evaluations : Bool) : List HistoryEntry :=
  match dictGet cm.sessions session_id with
  | none => []
  | some sm =>
    let interactions :=
      match limit with
      | some l => if l ≠ 0 then sliceFromNegIdx sm.interactions l else sm.interactions
      | none => sm.interactions
    interactions.map (historyEntryOf include_evaluations)

/-- Method `ConversationMemory.get_performance_trends`: `[]` when the id is not a
key of the performance cache, otherwise `performance_data[-window_size:]`
(with `[]` for an empty cached list). -/
def get_performance_trends (cm : ConversationMemory) (session_id : Nat)
    (window_size : Nat) : List PerformanceSample :=
  match dictGet cm.performance_cache session_id with
  | none => []
  | some performance_data =>
    if performance_data ≠ [] then sliceFromNegIdx performance_data window_size else []

/-- One entry returned by `search_similar_interactions`. -/
structure SearchEntry where
  timestamp : Int
  question : Option String
  answer : Option String
  question_type : String
  topics_covered : List String
deriving DecidableEq

/-- The entry built for one matching interaction by
`search_similar_interactions`. -/
def searchEntryOf (i : InteractionMemory) : SearchEntry :=
  { timestamp := i.timestamp
    question := i.question
    answer := i.answer
    question_type := i.question_type
    topics_covered := i.topics_covered }

/-- Method `ConversationMemory.search_similar_interactions`: `[]` for an unknown
session; otherwise scan the interactions in order, keep those with a truthy
topic list containing a label with the lower-cased query as substring and
(when the type filter is truthy) an exactly matching question type; return
the Python suffix slice `[-limit:]` of the matches. -/
def search_similar_interactions (cm : ConversationMemory) (session_id : Nat)
    (query_topic : String) (interaction_type : Option String) (limit : Nat) :
    List SearchEntry :=
  match dictGet cm.sessions session_id with
  | none => []
  | some sm =>
    let similar := sm.interactions.foldl
      (fun acc i =>
        if i.topics_covered ≠ [] then
          if i.topics_covered.any (fun t => pySubstr (pyLower query_topic) (pyLower t)) then
            if !(pyTruthyStr interaction_type)
                || i.question_type == interaction_type.getD "" then
              acc ++ [searchEntryOf i]
            else acc
          else acc
        else acc) []
    sliceFromNegIdx similar limit

/-- The dict returned by `get_topic_coverage`: `{}` for an unknown session,
a populated analysis otherwise. -/
inductive TopicCoverage where
  | empty
  | cov (total_topics_mentioned : Nat) (covered_topics : List String)
      (topic_frequency : List (String × Nat)) (most_discussed : Option String)
      (coverage_depth : ℚ)
deriving DecidableEq

/-- Embedding of `defaultdict(int)` increment `d[k] += 1` over string keys. -/
def freqBump (l : List (String × Nat)) (k : String) : List (String × Nat) :=
  match l with
  | [] => [(k, 1)]
  | (k2, n) :: rest => if k2 = k then (k2, n + 1) :: rest else (k2, n) :: freqBump rest k

/-- Python `max(items, key=lambda x: x[1])[0]`: key of the first entry with
the maximal count (later entries replace only on a strictly larger count). -/
def maxByCount : List (String × Nat) → Option String
  | [] => none
  | p :: rest => some (rest.foldl (fun best q => if q.2 > best.2 then q else best) p).1

/-- Method `ConversationMemory.get_topic_coverage`: `{}` (here `.empty`) for an
unknown session; otherwise the aggregated topic statistics with
`coverage_depth = len(all_topics) / max(1, len(interactions))`. -/
def get_topic_coverage (cm : ConversationMemory) (session_id : Nat) : TopicCoverage :=
  match dictGet cm.sessions session_id with
  | none => .empty
  | some sm =>
    let all_topics := sm.interactions.foldl
      (fun acc i => if i.topics_covered ≠ [] then acc ++ i.topics_covered else acc) []
    let topic_frequency := sm.interactions.foldl
      (fun acc i =>
        if i.topics_covered ≠ [] then i.topics_covered.foldl freqBump acc else acc) []
    .cov (pySetList all_topics).length sm.covered_topics topic_frequency
      (maxByCount topic_frequency)
      ((all_topics.length : ℚ) / ((max 1 sm.interactions.length : Nat) : ℚ))

/-- Method `ConversationMemory.cleanup_session`: removes the session and its
performance history; a no-op for keys that are absent. -/
def cleanup_session (cm : ConversationMemory) (session_id : Nat) : ConversationMemory :=
  { cm with
    sessions := dictDelete cm.sessions session_id
    performance_cache := dictDelete cm.performance_cache session_id }

/-- Method `ConversationMemory.cleanup_expired_sessions`: collect the ids whose
`start_time` is strictly before `now - max_memory_hours` (hours embedded as
3600-second units) and clean each one up. -/
def cleanup_expired_sessions (cm : ConversationMemory) (now : Int) : ConversationMemory :=
  let cutoff_time := now - cm.max_memory_hours * 3600
  let expired_sessions :=
    (cm.sessions.filter (fun p => p.2.start_time < cutoff_time)).map (fun p => p.1)
  expired_sessions.foldl (fun acc sid => cleanup_session acc sid) cm

/-- One entry of the `recent_interactions` list of the session context. -/
structure RecentEntry where
  question : Option String
  answer : Option String
  question_type : String
  timestamp : Int
deriving DecidableEq

/-- Method `ConversationMemory._get_recent_interactions` on one session's memory
(the Python helper looks the session up in `self.sessions`; it is only
called with a key its caller has already checked). -/
def getRecentInteractions (sm : SessionMemory) (limit : Nat) : List RecentEntry :=
  let recent := if sm.interactions ≠ [] then sliceFromNegIdx sm.interactions limit else []
  recent.map (fun i =>
    { question := i.question
      answer := i.answer
      question_type := i.question_type
      timestamp := i.timestamp })

/-- Embedding of `defaultdict(list)` append over string keys, used for per-dimension
score collection. -/
def scoreAppend (l : List (String × List Int)) (k : String) (v : Int) :
    List (String × List Int) :=
  match l with
  | [] => [(k, [v])]
  | (k2, vs) :: rest =>
    if k2 = k then (k2, vs ++ [v]) :: rest else (k2, vs) :: scoreAppend rest k v

/-- The dict returned by `_get_performance_summary`: `{}` or the populated
summary. -/
inductive PerformanceSummary where
  | empty
  | summary (total_evaluations : Nat) (average_scores : List (String × ℚ))
      (recent_trend : String)
deriving DecidableEq

/-- Method `ConversationMemory._get_performance_summary`: collects every
evaluation entry whose key ends in `"_score"` (all embedded values are
numeric, so the `isinstance` guard always passes) and averages per key. -/
def getPerformanceSummary (cm : ConversationMemory) (session_id : Nat) :
    PerformanceSummary :=
  match dictGet cm.performance_cache session_id with
  | none => .empty
  | some performance_data =>
    if performance_data = [] then .empty
    else
      let total_scores := performance_data.foldl
        (fun acc d =>
          d.evaluation.foldl
            (fun acc2 kv =>
              if kv.1.endsWith "_score" then scoreAppend acc2 kv.1 kv.2 else acc2)
            acc)
        []
      let averages := total_scores.map
        (fun p => (p.1, ((p.2.sum : ℚ) / (p.2.length : ℚ))))
      .summary performance_data.length averages
        (if performance_data.length > 1 then "improving" else "initial")

/-- The dict returned by `_analyze_conversation_flow`. -/
inductive FlowAnalysis where
  | noData
  | flow (total_interactions : Nat) (question_types_used : List (String × Nat))
      (flow_diversity : Nat) (progression : List String)
deriving DecidableEq

/-- Method `ConversationMemory._analyze_conversation_flow` on one session's memory
(same lookup convention as `getRecentInteractions`). -/
def analyzeConversationFlow (sm : SessionMemory) : FlowAnalysis :=
  if sm.interactions = [] then .noData
  else
    let question_types := sm.interactions.foldl
      (fun acc i => if i.question_type ≠ "" then acc ++ [i.question_type] else acc) []
    let type_counts := question_types.foldl freqBump []
    .flow sm.interactions.length type_counts (pySetList question_types).length
      (if question_types.length ≥ 5 then sliceFromNegIdx question_types 5
       else question_types)

/-- The composite dict returned by `get_session_context`. -/
structure SessionContext where
  session_id : Nat
  topic : String
  difficulty : DifficultyLevel
  start_time : Int
  current_question : Option String
  covered_topics : List String
  interaction_count : Nat
  recent_interactions : List RecentEntry
  performance_summary : PerformanceSummary
  conversation_flow : FlowAnalysis
deriving DecidableEq

/-- Method `ConversationMemory.get_session_context`: raises `ValueError` for an
unknown session, otherwise builds the composite read view. -/
def get_session_context (cm : ConversationMemory) (session_id : Nat) :
    Except String SessionContext :=
  match dictGet cm.sessions session_id with
  | none => .error "Session not found in memory"
  | some sm =>
    .ok
      { session_id := session_id
        topic := sm.topic
        difficulty := sm.difficulty
        start_time := sm.start_time
        current_question := sm.current_question
        covered_topics := sm.covered_topics
        interaction_count := sm.interactions.length
        recent_interactions := getRecentInteractions sm 5
        performance_summary := getPerformanceSummary cm session_id
        conversation_flow := analyzeConversationFlow sm }

/-! ### Orchestrator (`main_orchestrator.py`) -/

/-- The interview phases of the orchestrator. -/
inductive InterviewPhase where
  | opening
  | architecture
  | deep_dive
  | optimization
  | wrap_up
deriving DecidableEq

/-- The `QuestionGeneration` output schema
(`app/agents/models/output_schemas.py`), as produced by the question
generator agent. -/
structure QuestionGeneration where
  question : String
  question_type : String
  topics_targeted : List String
  difficulty_level : String
  expected_concepts : List String
  guidance_hints : List String
deriving DecidableEq

/-- One entry of `MainOrchestrator.current_sessions`: the per-session state
dict built by `start_interview` and mutated by `_update_session_state`. -/
structure OrchSessionState where
  topic : String
  difficulty : DifficultyLevel
  phase : InterviewPhase
  start_time : Int
  questions_asked : Nat
  topics_covered : List String
  performance_history : List EvalDict
  last_question : Option String := none
deriving DecidableEq

/-- The `"context"` value of a returned payload: the generated question's
dict on the normal path, the `"Fallback response due to: ..."` string on
the fallback path. -/
inductive PayloadContext where
  | questionData (q : QuestionGeneration)
  | fallbackNote (error : String)
deriving DecidableEq

/-- The dict returned by `process_user_answer`.  The two dicts the source
builds share the keys `type`, `message`, `context`, `focus_areas` and
`session_id`; only the fallback dict carries a `fallback` key, and neither
carries an `evaluation` key (modelled as an always-`none` option so that
`_update_session_state`'s key test can be embedded faithfully). -/
structure ActionPayload where
  type : String
  message : String
  context : PayloadContext
  focus_areas : List String
  session_id : Nat
  evaluation : Option EvalDict := none
  fallback : Bool := false
deriving DecidableEq

/-- The orchestrator state the embedded operations touch: the conversation
memory and the per-session state dict. -/
structure MainOrchestrator where
  memory : ConversationMemory
  current_sessions : List (Nat × OrchSessionState)
deriving DecidableEq

/-- Method `MainOrchestrator._process_agent_response`: ignores the React agent's
response text and builds the follow-up payload from the question
generator's output; the remote generator call is embedded as an `Except`
argument, and its failure propagates to the caller's handler. -/
def processAgentResponse (session_id : Nat)
    (genResult : Except String QuestionGeneration) : Except String ActionPayload :=
  match genResult with
  | .error e => .error e
  | .ok follow_up =>
    .ok
      { type := "follow_up"
        message := follow_up.question
        context := .questionData follow_up
        focus_areas := follow_up.topics_targeted
        session_id := session_id }

/-- Method `MainOrchestrator._update_session_state`: bumps `questions_asked`,
appends to `performance_history` only when the payload has an `evaluation`
key (never true for the payloads this orchestrator builds), and records the
always-present `message` as `last_question`.  The Python code indexes
`current_sessions` unconditionally; its only caller has already checked the
key, so the absent case leaves the state unchanged. -/
def updateSessionState (o : MainOrchestrator) (session_id : Nat)
    (response : ActionPayload) : MainOrchestrator :=
  match dictGet o.current_sessions session_id with
  | none => o
  | some st =>
    let st1 := { st with questions_asked := st.questions_asked + 1 }
    let st2 :=
      match response.evaluation with
      | some e => { st1 with performance_history := st1.performance_history ++ [e] }
      | none => st1
    let st3 := { st2 with last_question := some response.message }
    { o with current_sessions := dictSet o.current_sessions session_id st3 }

/-- Method `MainOrchestrator._generate_fallback_response`: the deterministic
fallback payload, marked with `fallback = True`.  (The source reads the
session state but uses none of it.) -/
def generateFallbackResponse (session_id : Nat) (error : String) : ActionPayload :=
  { type := "fallback"
    message := "Thank you for your response. Can you elaborate on your approach to handling scalability?"
    context := .fallbackNote error
    focus_areas := ["scalability", "architecture"]
    session_id := session_id
    fallback := true }

/-- Method `MainOrchestrator.process_user_answer`: raises for an unknown session
(the check sits before the `try` block); inside the `try`, the React agent
invocation and the question-generator call (both remote, embedded as
`Except` arguments) feed `_process_agent_response` and
`_update_session_state`; any failure inside the `try` is converted into the
fallback payload with the state left untouched. -/
def process_user_answer (o : MainOrchestrator) (session_id : Nat)
    (user_answer : String) (agentResult : Except String Unit)
    (genResult : Except String QuestionGeneration) :
    Except String (MainOrchestrator × ActionPayload) :=
  match dictGet o.current_sessions session_id with
  | none => .error "Session not found"
  | some _ =>
    let attempt : Except String (MainOrchestrator × ActionPayload) :=
      match agentResult with
      | .error e => .error e
      | .ok _ =>
        match processAgentResponse session_id genResult with
        | .error e => .error e
        | .ok processed_response =>
          .ok (updateSessionState o session_id processed_response, processed_response)
    match attempt with
    | .ok r => .ok r
    | .error e => .ok (o, generateFallbackResponse session_id e)

/-! ### Call sequences and spec-side formulations -/

/-- One `add_interaction` call: target session, keyword arguments, and the
clock value at call time. -/
structure AddCall where
  session_id : Nat
  args : AddArgs
  now : Int
deriving DecidableEq

/-- Apply one `add_interaction` call; a raised `ValueError` leaves the
store unchanged (the Python method raises before any mutation). -/
def applyAdd (cm : ConversationMemory) (c : AddCall) : ConversationMemory :=
  match add_interaction cm c.session_id c.args c.now with
  | .ok cm2 => cm2
  | .error _ => cm

/-- Apply a sequence of `add_interaction` calls in order. -/
def runAdds (cm : ConversationMemory) (calls : List AddCall) : ConversationMemory :=
  calls.foldl applyAdd cm

/-- The spec's bound invariant: every stored session holds at most
`max_interactions_per_session` interactions. -/
abbrev boundInv (cm : ConversationMemory) : Prop :=
  ∀ p ∈ cm.sessions, p.2.interactions.length ≤ cm.max_interactions_per_session

/-- The covered-topic list of a session (`[]` when the id is unknown). -/
def coveredOf (cm : ConversationMemory) (session_id : Nat) : List String :=
  match dictGet cm.sessions session_id with
  | some sm => sm.covered_topics
  | none => []

/-- Spec-side union of every topic label passed to `add_interaction` for
one session across a call sequence. -/
def topicsUnion (session_id : Nat) : List AddCall → Finset String
  | [] => ∅
  | c :: rest =>
    (if c.session_id = session_id then (c.args.expected_topics.getD []).toFinset else ∅)
      ∪ topicsUnion session_id rest

/-- Spec-side "the last `k` elements" (all of them when fewer exist). -/
def takeLast (l : List α) (k : Nat) : List α :=
  l.drop (l.length - k)

/-- Spec-side match predicate for `search_similar_interactions`: some topic
label contains the query as a case-insensitive substring, and the question
kind matches exactly whenever a non-empty kind filter is supplied. -/
def specTopicMatch (query_topic : String) (interaction_type : Option String)
    (i : InteractionMemory) : Bool :=
  (i.topics_covered.any fun t => pySubstr (pyLower query_topic) (pyLower t)) &&
  (match interaction_type with
   | none => true
   | some t => if t = "" then true else i.question_type == t)

/-- The follow-up payload `_process_agent_response` builds from a generated
question. -/
def followUpPayload (session_id : Nat) (q : QuestionGeneration) : ActionPayload :=
  { type := "follow_up"
    message := q.question
    context := .questionData q
    focus_areas := q.topics_targeted
    session_id := session_id }

/-- The error message the `try` block of `process_user_answer` escapes
with: the React-agent failure when that call fails, otherwise the
question-generator failure. -/
def pickErr (a : Except String Unit) (g : Except String QuestionGeneration) : String :=
  match a with
  | .error e => e
  | .ok _ =>
    match g with
    | .error e => e
    | .ok _ => ""

/-! ### Concrete fixtures used by witnesses and counterexamples -/

/-- A store with `max_interactions_per_session = 1` holding one fresh
session. -/
def tinyStore : ConversationMemory :=
  init_session { max_interactions_per_session := 1 } 1 "chat_system" .beginner 0

/-- Two `add_interaction` calls on the session of `tinyStore`. -/
def tinyRun : Except String ConversationMemory := do
  let s1 ← add_interaction tinyStore 1 { question := some "Q1" } 1
  add_interaction s1 1 { question := some "Q2" } 2

/-- A default-configuration store with one session holding the two
interactions of the spec's topic-search scenario. -/
def searchDemoStore : ConversationMemory :=
  match (do
      let s1 ← add_interaction (init_session { } 1 "chat_system" .beginner 0) 1
        { question := some "Q1", expected_topics := some ["caching", "database"] } 1
      add_interaction s1 1
        { question := some "Q2", expected_topics := some ["caching", "cdn"] } 2 :
      Except String ConversationMemory) with
  | .ok cm => cm
  | .error _ => { }

/-- The session stored in `searchDemoStore` under id 1, written out. -/
def searchDemoSession : SessionMemory :=
  { session_id := 1
    topic := "chat_system"
    difficulty := .beginner
    start_time := 0
    interactions :=
      [{ timestamp := 1, question := some "Q1",
         topics_covered := ["caching", "database"] },
       { timestamp := 2, question := some "Q2",
         topics_covered := ["caching", "cdn"] }]
    current_question := some "Q2"
    covered_topics := ["caching", "database", "cdn"] }

/-- Two concrete `add_interaction` calls used by witnesses. -/
def demoCalls : List AddCall :=
  [{ session_id := 1, args := { question := some "Q3" }, now := 3 },
   { session_id := 1,
     args := { answer := some "A3", evaluation := some [("clarity_score", 7)] },
     now := 4 }]

/-- An expiry-sweep fixture: session 1 started 25 hours before the sweep
instant `100000`, session 2 started 1 hour before it. -/
def expiryDemoStore : ConversationMemory :=
  init_session (init_session { } 1 "chat_system" .beginner 10000)
    2 "chat_system" .beginner 96400

/-- The 25-hour-old session of `expiryDemoStore`. -/
def expiryDemoOld : SessionMemory :=
  { session_id := 1
    topic := "chat_system"
    difficulty := .beginner
    start_time := 10000
    interactions := [] }

/-- The 1-hour-old session of `expiryDemoStore`. -/
def expiryDemoNew : SessionMemory :=
  { session_id := 2
    topic := "chat_system"
    difficulty := .beginner
    start_time := 96400
    interactions := [] }

/-- An orchestrator fixture: one known session, empty conversation
memory for it. -/
def orchDemoState : OrchSessionState :=
  { topic := "chat_system"
    difficulty := .beginner
    phase := .opening
    start_time := 0
    questions_asked := 1
    topics_covered := []
    performance_history := [] }

/-- The orchestrator holding `orchDemoState` under session id 1. -/
def orchDemo : MainOrchestrator :=
  { memory := init_session { } 1 "chat_system" .beginner 0
    current_sessions := [(1, orchDemoState)] }

/-- A concrete generated follow-up question. -/
def demoQuestion : QuestionGeneration :=
  { question := "How would you scale the write path?"
    question_type := "follow_up"
    topics_targeted := ["scalability"]
    difficulty_level := "beginner"
    expected_concepts := ["sharding"]
    guidance_hints := ["Think about hot keys"] }

/-- The default-configuration store, fresh out of the constructor. -/
def emptyStore : ConversationMemory := { }

/-! ### Association-list lemmas -/

theorem dictGet_dictSet_self (l : List (Nat × β)) (k : Nat) (v : β) :
    dictGet (dictSet l k v) k = some v := by
  induction l with
  | nil => simp [dictSet, dictGet]
  | cons p rest ih =>
    obtain ⟨k2, w⟩ := p
    by_cases h : k2 = k
    · simp [dictSet, h, dictGet]
    · simp [dictSet, h, dictGet, ih]

theorem dictGet_dictSet_ne (l : List (Nat × β)) (k k2 : Nat) (v : β) (h : k ≠ k2) :
    dictGet (dictSet l k v) k2 = dictGet l k2 := by
  induction l with
  | nil => simp [dictSet, dictGet, h]
  | cons p rest ih =>
    obtain ⟨k3, w⟩ := p
    by_cases h3 : k3 = k
    · subst h3
      simp [dictSet, dictGet, h]
    · simp [dictSet, h3, dictGet, ih]

theorem mem_dictSet (l : List (Nat × β)) (k : Nat) (v : β) (p : Nat × β)
    (hp : p ∈ dictSet l k v) : p ∈ l ∨ p = (k, v) := by
  induction l with
  | nil =>
    simp [dictSet] at hp
    exact Or.inr hp
  | cons q rest ih =>
    obtain ⟨k2, w⟩ := q
    by_cases h : k2 = k
    · simp [dictSet, h] at hp
      rcases hp with hp | hp
      · exact Or.inr (by simp [hp, h])
      · exact Or.inl (List.mem_cons_of_mem _ hp)
    · simp [dictSet, h] at hp
      rcases hp with hp | hp
      · exact Or.inl (by simp [hp])
      · rcases ih hp with h2 | h2
        · exact Or.inl (List.mem_cons_of_mem _ h2)
        · exact Or.inr h2

theorem dictGet_mem (l : List (Nat × β)) (k : Nat) (v : β)
    (h : dictGet l k = some v) : (k, v) ∈ l := by
  induction l with
  | nil => simp [dictGet] at h
  | cons p rest ih =>
    obtain ⟨k2, w⟩ := p
    by_cases h2 : k2 = k
    · subst h2
      simp [dictGet] at h
      simp [h]
    · simp [dictGet, h2] at h
      exact List.mem_cons_of_mem _ (ih h)

theorem dictGet_eq_of_mem_nodup (l : List (Nat × β)) (k : Nat) (v : β)
    (hnd : (l.map Prod.fst).Nodup) (h : dictGet l k = some v) :
    ∀ p ∈ l, p.1 = k → p = (k, v) := by
  induction l with
  | nil => intro p hp; simp at hp
  | cons q rest ih =>
    obtain ⟨k2, w⟩ := q
    simp only [List.map_cons, List.nodup_cons] at hnd
    intro p hp hpk
    by_cases h2 : k2 = k
    · subst h2
      simp [dictGet] at h
      rcases List.mem_cons.mp hp with hp | hp
      · simp [hp, h]
      · exfalso
        exact hnd.1 (hpk ▸ (List.mem_map.mpr ⟨p, hp, rfl⟩))
    · simp [dictGet, h2] at h
      rcases List.mem_cons.mp hp with hp | hp
      · exfalso; exact h2 (by simp [hp] at hpk ⊢; exact hpk)
      · exact ih hnd.2 h p hp hpk

/-! ### Claim C10 -/

/-- C10: `initialize_session` on an id that is already present replaces the
session's memory with a fresh empty one (interactions, covered topics,
current question and context summary all reset) but leaves the performance
cache untouched, so `get_performance_trends` afterwards returns exactly
what it returned before.  (Proved for every store, which covers the
already-present case.) -/
theorem claim_C10_reinit (cm : ConversationMemory) (session_id : Nat)
    (topic : String) (difficulty : DifficultyLevel) (now : Int) (w : Nat) :
    dictGet (init_session cm session_id topic difficulty now).sessions session_id =
      some { session_id := session_id, topic := topic, difficulty := difficulty,
             start_time := now, interactions := [], current_question := none,
             covered_topics := [], performance_trends := [],
             context_summary := .empty } ∧
    (init_session cm session_id topic difficulty now).performance_cache =
      cm.performance_cache ∧
    get_performance_trends (init_session cm session_id topic difficulty now)
        session_id w =
      get_performance_trends cm session_id w :=
  ⟨dictGet_dictSet_self _ _ _, rfl, rfl⟩

/-! ### Claim C4 -/

/-- C4 counterexample: on the freshly constructed store every session id is
unknown, yet `get_performance_trends`, `search_similar_interactions` and
`get_topic_coverage` return ordinary empty values — their code paths have
no error channel at all — where the claim demands a `NotFound` signal
(which the embedding renders as `Except.error`, the image of Python
`raise ValueError`, as in `add_interaction`). -/
theorem claim_C4_counterexample :
    get_performance_trends emptyStore 0 10 = [] ∧
    search_similar_interactions emptyStore 0 "caching" none 5 = [] ∧
    get_topic_coverage emptyStore 0 = TopicCoverage.empty := by
  decide

/-- C4 amended: for an unknown session id only `add_interaction` and
`get_session_context` signal `NotFound`; `get_conversation_history`,
`get_performance_trends` and `search_similar_interactions` return the
empty list and `get_topic_coverage` returns the empty dict. -/
theorem claim_C4_amended (cm : ConversationMemory) (session_id : Nat) (a : AddArgs)
    (now : Int) (limit : Option Nat) (ie : Bool) (q : String)
    (itype : Option String) (lim w : Nat)
    (h1 : dictGet cm.sessions session_id = none)
    (h2 : dictGet cm.performance_cache session_id = none) :
    add_interaction cm session_id a now = .error "Session not found in memory" ∧
    get_session_context cm session_id = .error "Session not found in memory" ∧
    get_conversation_history cm session_id limit ie = [] ∧
    get_performance_trends cm session_id w = [] ∧
    search_similar_interactions cm session_id q itype lim = [] ∧
    get_topic_coverage cm session_id = .empty := by
  refine ⟨?_, ?_, ?_, ?_, ?_, ?_⟩ <;>
    simp [add_interaction, get_session_context, get_conversation_history,
      get_performance_trends, search_similar_interactions, get_topic_coverage,
      h1, h2]

/-- C4 amended, witnessed on the empty store at id 0. -/
theorem claim_C4_amended_witness :
    dictGet emptyStore.sessions 0 = none ∧
    dictGet emptyStore.performance_cache 0 = none ∧
    (add_interaction emptyStore 0 { } 0 = .error "Session not found in memory" ∧
     get_session_context emptyStore 0 = .error "Session not found in memory" ∧
     get_conversation_history emptyStore 0 none false = [] ∧
     get_performance_trends emptyStore 0 10 = [] ∧
     search_similar_interactions emptyStore 0 "caching" none 5 = [] ∧
     get_topic_coverage emptyStore 0 = .empty) :=
  ⟨by decide, by decide,
   claim_C4_amended emptyStore 0 { } 0 none false "caching" none 5 10
     (by decide) (by decide)⟩

/-! ### Claim C8 -/

/-- C8 counterexample: `get_conversation_history` with the supplied limit
`0` returns the full two-interaction history of the demo session, not the
`0` most-recent interactions the claim requires (Python `if limit:` treats
`0` as falsy and skips truncation). -/
theorem claim_C8_counterexample :
    (get_conversation_history searchDemoStore 1 (some 0) false).length = 2 := by
  decide

/-- C8 amended: for a known session and a positive supplied limit,
`get_conversation_history` returns the `limit` most-recent interactions in
chronological order (all of them when fewer exist); for an unknown session
it returns `[]`; a supplied limit of `0` is treated like no limit and
returns the whole history. -/
theorem claim_C8_amended (cm : ConversationMemory) (session_id : Nat) (l : Nat)
    (ie : Bool) :
    (∀ sm, dictGet cm.sessions session_id = some sm → 1 ≤ l →
      get_conversation_history cm session_id (some l) ie =
        takeLast (sm.interactions.map (historyEntryOf ie)) l) ∧
    (∀ sm, dictGet cm.sessions session_id = some sm →
      get_conversation_history cm session_id (some 0) ie =
        sm.interactions.map (historyEntryOf ie)) ∧
    (dictGet cm.sessions session_id = none →
      get_conversation_history cm session_id (some l) ie = []) := by
  refine ⟨?_, ?_, ?_⟩
  · intro sm h hl
    have hne : l ≠ 0 := Nat.one_le_iff_ne_zero.mp hl
    simp [get_conversation_history, h, hne, sliceFromNegIdx, takeLast,
      List.map_drop, List.length_map]
  · intro sm h
    simp [get_conversation_history, h]
  · intro h
    simp [get_conversation_history, h]

/-- C8 amended, witnessed on the demo store: the last interaction of the
two is returned for limit 1, and an unknown id yields `[]`. -/
theorem claim_C8_amended_witness :
    dictGet searchDemoStore.sessions 1 = some searchDemoSession ∧
    (1 : Nat) ≤ 1 ∧
    get_conversation_history searchDemoStore 1 (some 1) false =
      takeLast (searchDemoSession.interactions.map (historyEntryOf false)) 1 ∧
    dictGet searchDemoStore.sessions 99 = none ∧
    get_conversation_history searchDemoStore 99 (some 1) false = [] :=
  ⟨by decide, by decide,
   (claim_C8_amended searchDemoStore 1 1 false).1 searchDemoSession
     (by decide) (by decide),
   by decide,
   (claim_C8_amended searchDemoStore 99 1 false).2.2 (by decide)⟩

/-! ### Claim C5 -/

/-- C5: if the React-agent invocation or the question-generator call inside
`process_user_answer` fails, the call still returns normally with the
fallback payload (marked `fallback = true`, `type = "fallback"`), and the
returned orchestrator is the unchanged input `o` — in particular its
conversation memory gains no interaction record at all, so certainly none
with a non-null evaluation. -/
theorem claim_C5_fallback (o : MainOrchestrator) (session_id : Nat)
    (user_answer : String) (st : OrchSessionState)
    (agentResult : Except String Unit)
    (genResult : Except String QuestionGeneration)
    (hs : dictGet o.current_sessions session_id = some st)
    (hf : agentResult.isOk = false ∨ genResult.isOk = false) :
    process_user_answer o session_id user_answer agentResult genResult =
      .ok (o, generateFallbackResponse session_id (pickErr agentResult genResult)) ∧
    (generateFallbackResponse session_id (pickErr agentResult genResult)).fallback
      = true ∧
    (generateFallbackResponse session_id (pickErr agentResult genResult)).type
      = "fallback" := by
  refine ⟨?_, rfl, rfl⟩
  cases agentResult with
  | error e => simp [process_user_answer, hs, pickErr]
  | ok u =>
    cases genResult with
    | error e => simp [process_user_answer, hs, pickErr, processAgentResponse]
    | ok q => simp [Except.isOk, Except.toBool] at hf

/-- C5, witnessed: a failing agent invocation on the demo orchestrator. -/
theorem claim_C5_fallback_witness :
    dictGet orchDemo.current_sessions 1 = some orchDemoState ∧
    (Except.error "LLM timeout" : Except String Unit).isOk = false ∧
    (process_user_answer orchDemo 1 "We shard by user id"
        (.error "LLM timeout") (.ok demoQuestion) =
      .ok (orchDemo, generateFallbackResponse 1
            (pickErr (.error "LLM timeout") (.ok demoQuestion))) ∧
     (generateFallbackResponse 1
        (pickErr (.error "LLM timeout") (.ok demoQuestion))).fallback = true ∧
     (generateFallbackResponse 1
        (pickErr (.error "LLM timeout") (.ok demoQuestion))).type = "fallback") :=
  ⟨by decide, by decide,
   claim_C5_fallback orchDemo 1 "We shard by user id" orchDemoState
     (.error "LLM timeout") (.ok demoQuestion) (by decide)
     (Or.inl (by decide))⟩

/-! ### Claim C3 -/

/-- C3 counterexample: a fully successful `process_user_answer` turn on the
demo orchestrator returns normally (`Except.ok`), yet the session's stored
interaction list still has length 0 — no `InteractionLog` recording the
turn was appended to `SessionMemory` (the method never calls
`memory.add_interaction`), where the claim requires one new entry. -/
theorem claim_C3_counterexample :
    (process_user_answer orchDemo 1 "We shard the database"
        (.ok ()) (.ok demoQuestion)).map
      (fun r => (dictGet r.1.memory.sessions 1).map
        (fun sm => sm.interactions.length)) = .ok (some 0) := by
  rfl

/-- C3 amended: a successful `process_user_answer` turn returns the
follow-up action payload built from the generated question and updates the
orchestrator's per-session state (`questions_asked` incremented,
`last_question` set to the new question), but appends nothing to the
session's `SessionMemory`: the conversation memory is returned unchanged. -/
theorem claim_C3_amended (o : MainOrchestrator) (session_id : Nat)
    (user_answer : String) (st : OrchSessionState) (q : QuestionGeneration)
    (hs : dictGet o.current_sessions session_id = some st) :
    process_user_answer o session_id user_answer (.ok ()) (.ok q) =
      .ok (updateSessionState o session_id (followUpPayload session_id q),
           followUpPayload session_id q) ∧
    (updateSessionState o session_id (followUpPayload session_id q)).memory =
      o.memory ∧
    dictGet (updateSessionState o session_id
        (followUpPayload session_id q)).current_sessions session_id =
      some { st with questions_asked := st.questions_asked + 1,
                     last_question := some q.question } := by
  refine ⟨?_, ?_, ?_⟩
  · simp [process_user_answer, hs, processAgentResponse, followUpPayload]
  · cases h : dictGet o.current_sessions session_id <;>
      simp [updateSessionState, h]
  · simp [updateSessionState, hs, followUpPayload, dictGet_dictSet_self]

/-- C3 amended, witnessed on the demo orchestrator. -/
theorem claim_C3_amended_witness :
    dictGet orchDemo.current_sessions 1 = some orchDemoState ∧
    (process_user_answer orchDemo 1 "We shard the database"
        (.ok ()) (.ok demoQuestion) =
      .ok (updateSessionState orchDemo 1 (followUpPayload 1 demoQuestion),
           followUpPayload 1 demoQuestion) ∧
     (updateSessionState orchDemo 1 (followUpPayload 1 demoQuestion)).memory =
       orchDemo.memory ∧
     dictGet (updateSessionState orchDemo 1
         (followUpPayload 1 demoQuestion)).current_sessions 1 =
       some { orchDemoState with
              questions_asked := orchDemoState.questions_asked + 1,
              last_question := some demoQuestion.question }) :=
  ⟨by decide,
   claim_C3_amended orchDemo 1 "We shard the database" orchDemoState
     demoQuestion (by decide)⟩

/-! ### Claim C1, counterexample part -/

/-- C1 counterexample: with `max_interactions_per_session = 1`, the second
`add_interaction` call returns normally with the session holding 2
interactions — `2 ≤ 1` fails.  (`keep_count = 1 // 2 = 0`, and the Python
slice `interactions[-0:]` keeps the whole list, so the enforcing step trims
nothing.) -/
theorem claim_C1_counterexample :
    tinyStore.max_interactions_per_session = 1 ∧
    tinyRun.map (fun cm => (dictGet cm.sessions 1).map
      (fun sm => sm.interactions.length)) = .ok (some 2) :=
  ⟨rfl, rfl⟩

/-! ### Claim C7 -/

theorem searchFold_eq (q : String) (itype : Option String) :
    ∀ (l : List InteractionMemory) (acc : List SearchEntry),
    l.foldl (fun acc i =>
        if i.topics_covered ≠ [] then
          if i.topics_covered.any (fun t => pySubstr (pyLower q) (pyLower t)) then
            if !(pyTruthyStr itype) || i.question_type == itype.getD "" then
              acc ++ [searchEntryOf i]
            else acc
          else acc
        else acc) acc
      = acc ++ (l.filter (specTopicMatch q itype)).map searchEntryOf := by
  intro l
  induction l with
  | nil => intro acc; simp
  | cons i rest ih =>
    intro acc
    have hstep : (if i.topics_covered ≠ [] then
          if i.topics_covered.any (fun t => pySubstr (pyLower q) (pyLower t)) then
            if !(pyTruthyStr itype) || i.question_type == itype.getD "" then
              acc ++ [searchEntryOf i]
            else acc
          else acc
        else acc)
        = if specTopicMatch q itype i then acc ++ [searchEntryOf i] else acc := by
      by_cases hcov : i.topics_covered = []
      · simp [hcov, specTopicMatch]
      · by_cases hany :
          i.topics_covered.any (fun t => pySubstr (pyLower q) (pyLower t)) = true
        · cases itype with
          | none => simp [hcov, hany, specTopicMatch, pyTruthyStr]
          | some t =>
            by_cases ht : t = ""
            · simp [hcov, hany, specTopicMatch, pyTruthyStr, ht]
            · by_cases hq : i.question_type = t
              · simp [hcov, hany, specTopicMatch, pyTruthyStr, ht, hq]
              · simp [hcov, hany, specTopicMatch, pyTruthyStr, ht, hq]
        · simp [hcov, hany, specTopicMatch]
    rw [List.foldl_cons, hstep]
    by_cases hm : specTopicMatch q itype i = true
    · rw [if_pos hm, List.filter_cons_of_pos hm, List.map_cons, ih,
        List.append_assoc, List.singleton_append]
    · rw [if_neg hm, List.filter_cons_of_neg (by simpa using hm), ih]

/-- C7 counterexample: on the scenario session (topics
`["caching", "database"]` and `["caching", "cdn"]`), querying `"cach"` with
the supplied limit `0` returns both matches instead of the `0` most-recent
matches the claim requires (the Python suffix slice `[-0:]` is the whole
list), and querying `"cach"` with the supplied kind `""` returns both
interactions although neither has question kind `""` (the `not
interaction_type` truthiness test disables the filter for the empty
string). -/
theorem claim_C7_counterexample :
    (search_similar_interactions searchDemoStore 1 "cach" none 0).length = 2 ∧
    (search_similar_interactions searchDemoStore 1 "cach" (some "") 5).length = 2 := by
  decide

/-- C7 amended: for a known session and a positive limit,
`search_similar_interactions` returns exactly the most-recent `limit`
matching interactions in chronological order, where an interaction matches
when some topic label contains the query as a case-insensitive substring
and, when a *non-empty* kind is supplied, its question kind equals it (an
empty kind string is treated as no filter; with limit `0` all matches are
returned). -/
theorem claim_C7_amended (cm : ConversationMemory) (session_id : Nat)
    (sm : SessionMemory) (q : String) (itype : Option String) (limit : Nat)
    (h : dictGet cm.sessions session_id = some sm) (hl : 1 ≤ limit) :
    search_similar_interactions cm session_id q itype limit =
      takeLast ((sm.interactions.filter (specTopicMatch q itype)).map searchEntryOf)
        limit := by
  have hne : limit ≠ 0 := Nat.one_le_iff_ne_zero.mp hl
  unfold search_similar_interactions
  rw [h]
  dsimp only
  rw [searchFold_eq]
  simp [sliceFromNegIdx, hne, takeLast]

/-- C7 amended, witnessed on the scenario store: querying `"cach"` returns
both interactions, querying `"cdn"` returns only the second. -/
theorem claim_C7_amended_witness :
    dictGet searchDemoStore.sessions 1 = some searchDemoSession ∧
    (1 : Nat) ≤ 5 ∧
    search_similar_interactions searchDemoStore 1 "cach" none 5 =
      takeLast ((searchDemoSession.interactions.filter
        (specTopicMatch "cach" none)).map searchEntryOf) 5 ∧
    (search_similar_interactions searchDemoStore 1 "cach" none 5).length = 2 ∧
    search_similar_interactions searchDemoStore 1 "cdn" none 5 =
      [{ timestamp := 2, question := some "Q2", answer := none,
         question_type := "general", topics_covered := ["caching", "cdn"] }] :=
  ⟨by decide, by decide,
   claim_C7_amended searchDemoStore 1 searchDemoSession "cach" none 5
     (by decide) (by decide),
   by decide, by decide⟩

/-! ### Claim C9 -/

theorem foldl_cleanup_eq : ∀ (ids : List Nat) (cm : ConversationMemory),
    ids.foldl (fun acc sid => cleanup_session acc sid) cm =
      { cm with
        sessions := cm.sessions.filter (fun p => decide (p.1 ∉ ids))
        performance_cache :=
          cm.performance_cache.filter (fun p => decide (p.1 ∉ ids)) } := by
  intro ids
  induction ids with
  | nil => intro cm; simp
  | cons i rest ih =>
    intro cm
    rw [List.foldl_cons, ih]
    simp only [cleanup_session, dictDelete]
    congr 1
    · rw [List.filter_filter]
      apply List.filter_congr
      intro p hp
      simp [List.mem_cons, not_or, Bool.and_comm]
    · rw [List.filter_filter]
      apply List.filter_congr
      intro p hp
      simp [List.mem_cons, not_or, Bool.and_comm]

theorem dictGet_filter_not_mem (ids : List Nat) (k : Nat) :
    ∀ (l : List (Nat × β)),
    dictGet (l.filter (fun p => decide (p.1 ∉ ids))) k =
      if k ∈ ids then none else dictGet l k := by
  intro l
  induction l with
  | nil =>
    simp only [List.filter_nil, dictGet]
    split <;> rfl
  | cons p rest ih =>
    obtain ⟨k2, v⟩ := p
    by_cases hmem : k2 ∈ ids
    · rw [List.filter_cons_of_neg (by simpa using hmem), ih]
      by_cases hk : k ∈ ids
      · simp [hk]
      · have hne : k2 ≠ k := fun he => hk (he ▸ hmem)
        simp [hk, dictGet, hne]
    · rw [List.filter_cons_of_pos (by simpa using hmem)]
      by_cases hk : k2 = k
      · subst hk
        simp [dictGet, hmem]
      · simp only [dictGet, hk, if_false, ih]

theorem mem_expired_iff (cm : ConversationMemory) (cutoff : Int) (sid : Nat)
    (sm : SessionMemory)
    (hnd : (cm.sessions.map Prod.fst).Nodup)
    (h : dictGet cm.sessions sid = some sm) :
    sid ∈ (cm.sessions.filter (fun p => p.2.start_time < cutoff)).map (fun p => p.1)
      ↔ sm.start_time < cutoff := by
  constructor
  · intro hmem
    obtain ⟨p, hp, hpk⟩ := List.mem_map.mp hmem
    obtain ⟨hpmem, hplt⟩ := List.mem_filter.mp hp
    have hpe := dictGet_eq_of_mem_nodup _ _ _ hnd h p hpmem hpk
    rw [hpe] at hplt
    simpa using hplt
  · intro hlt
    exact List.mem_map.mpr
      ⟨(sid, sm), List.mem_filter.mpr ⟨dictGet_mem _ _ _ h, by simpa using hlt⟩, rfl⟩

/-- C9: `cleanup_expired_sessions` removes exactly the sessions whose start
time is strictly older than `now - max_memory_hours` — an expired session
disappears together with its performance history, while a non-expired one
is left untouched along with its cached performance samples. -/
theorem claim_C9_expiry (cm : ConversationMemory) (now : Int) (sid : Nat)
    (sm : SessionMemory)
    (hnd : (cm.sessions.map Prod.fst).Nodup)
    (h : dictGet cm.sessions sid = some sm) :
    (sm.start_time < now - cm.max_memory_hours * 3600 →
      dictGet (cleanup_expired_sessions cm now).sessions sid = none ∧
      dictGet (cleanup_expired_sessions cm now).performance_cache sid = none) ∧
    (¬ sm.start_time < now - cm.max_memory_hours * 3600 →
      dictGet (cleanup_expired_sessions cm now).sessions sid = some sm ∧
      dictGet (cleanup_expired_sessions cm now).performance_cache sid =
        dictGet cm.performance_cache sid) := by
  have hrw : cleanup_expired_sessions cm now =
      { cm with
        sessions := cm.sessions.filter (fun p => decide (p.1 ∉
          (cm.sessions.filter
            (fun p => p.2.start_time < now - cm.max_memory_hours * 3600)).map
              (fun p => p.1)))
        performance_cache := cm.performance_cache.filter (fun p => decide (p.1 ∉
          (cm.sessions.filter
            (fun p => p.2.start_time < now - cm.max_memory_hours * 3600)).map
              (fun p => p.1))) } := by
    unfold cleanup_expired_sessions
    rw [foldl_cleanup_eq]
  rw [hrw]
  constructor
  · intro hlt
    have hin : sid ∈ (cm.sessions.filter
        (fun p => p.2.start_time < now - cm.max_memory_hours * 3600)).map
          (fun p => p.1) :=
      (mem_expired_iff cm _ sid sm hnd h).mpr hlt
    constructor
    · rw [dictGet_filter_not_mem, if_pos hin]
    · rw [dictGet_filter_not_mem, if_pos hin]
  · intro hge
    have hout : sid ∉ (cm.sessions.filter
        (fun p => p.2.start_time < now - cm.max_memory_hours * 3600)).map
          (fun p => p.1) :=
      fun hin => hge ((mem_expired_iff cm _ sid sm hnd h).mp hin)
    constructor
    · rw [dictGet_filter_not_mem, if_neg hout, h]
    · rw [dictGet_filter_not_mem, if_neg hout]

/-- C9, witnessed on `expiryDemoStore` at sweep instant `100000`: the
session started 25 hours earlier is removed together with its performance
history, the session started 1 hour earlier survives untouched. -/
theorem claim_C9_expiry_witness :
    (expiryDemoStore.sessions.map Prod.fst).Nodup ∧
    dictGet expiryDemoStore.sessions 1 = some expiryDemoOld ∧
    dictGet expiryDemoStore.sessions 2 = some expiryDemoNew ∧
    expiryDemoOld.start_time < 100000 - expiryDemoStore.max_memory_hours * 3600 ∧
    ¬ expiryDemoNew.start_time < 100000 - expiryDemoStore.max_memory_hours * 3600 ∧
    (dictGet (cleanup_expired_sessions expiryDemoStore 100000).sessions 1 = none ∧
     dictGet (cleanup_expired_sessions expiryDemoStore 100000).performance_cache 1 =
       none) ∧
    (dictGet (cleanup_expired_sessions expiryDemoStore 100000).sessions 2 =
       some expiryDemoNew ∧
     dictGet (cleanup_expired_sessions expiryDemoStore 100000).performance_cache 2 =
       dictGet expiryDemoStore.performance_cache 2) :=
  ⟨by decide, by decide, by decide, by decide, by decide,
   (claim_C9_expiry expiryDemoStore 100000 1 expiryDemoOld (by decide)
     (by decide)).1 (by decide),
   (claim_C9_expiry expiryDemoStore 100000 2 expiryDemoNew (by decide)
     (by decide)).2 (by decide)⟩

/-! ### Session-update lemmas shared by C1, C2 and C6 -/

theorem runAdds_nil (cm : ConversationMemory) : runAdds cm [] = cm := rfl

theorem runAdds_cons (cm : ConversationMemory) (c : AddCall) (calls : List AddCall) :
    runAdds cm (c :: calls) = runAdds (applyAdd cm c) calls := rfl

theorem runAdds_append (cm : ConversationMemory) (l1 l2 : List AddCall) :
    runAdds cm (l1 ++ l2) = runAdds (runAdds cm l1) l2 := by
  unfold runAdds
  exact List.foldl_append _ _ _ _

theorem coveredOf_some (cm : ConversationMemory) (sid : Nat) (sm : SessionMemory)
    (h : dictGet cm.sessions sid = some sm) :
    coveredOf cm sid = sm.covered_topics := by
  unfold coveredOf
  rw [h]

theorem addToSession_interactions (sm : SessionMemory) (a : AddArgs) (now : Int) :
    (addToSession sm a now).interactions = sm.interactions ++ [mkInteraction now a] := by
  unfold addToSession
  rcases a.question with _ | q
  · rfl
  · dsimp only
    split <;> rfl

theorem addToSession_covered (sm : SessionMemory) (a : AddArgs) (now : Int) :
    (addToSession sm a now).covered_topics =
      updateCovered sm.covered_topics a.expected_topics := by
  unfold addToSession
  rcases a.question with _ | q
  · rfl
  · dsimp only
    split <;> rfl

theorem addToSession_summary (sm : SessionMemory) (a : AddArgs) (now : Int) :
    (addToSession sm a now).context_summary = sm.context_summary := by
  unfold addToSession
  rcases a.question with _ | q
  · rfl
  · dsimp only
    split <;> rfl

theorem manage_of_le (maxN : Nat) (sm : SessionMemory)
    (h : sm.interactions.length ≤ maxN) : manageMemorySize maxN sm = sm := by
  unfold manageMemorySize
  rw [if_neg (by omega)]

theorem manage_covered (maxN : Nat) (sm : SessionMemory) :
    (manageMemorySize maxN sm).covered_topics = sm.covered_topics := by
  unfold manageMemorySize
  split <;> rfl

theorem manage_length_le (maxN : Nat) (sm : SessionMemory) (h2 : 2 ≤ maxN) :
    (manageMemorySize maxN sm).interactions.length ≤ maxN := by
  unfold manageMemorySize
  split
  · have hk : maxN / 2 ≠ 0 := by omega
    have hk2 : maxN / 2 ≤ maxN := Nat.div_le_self _ _
    dsimp only
    rw [sliceFromNegIdx, if_neg hk, List.length_drop]
    omega
  · omega

theorem applyAdd_ok (cm : ConversationMemory) (c : AddCall) (sm : SessionMemory)
    (h : dictGet cm.sessions c.session_id = some sm) :
    applyAdd cm c =
      { cm with
        sessions := dictSet cm.sessions c.session_id
          (manageMemorySize cm.max_interactions_per_session
            (addToSession sm c.args c.now))
        performance_cache :=
          if pyTruthyEval c.args.evaluation then
            cacheAppend cm.performance_cache c.session_id
              { timestamp := (mkInteraction c.now c.args).timestamp
                evaluation := c.args.evaluation.getD []
                question_type := c.args.question_type }
          else cm.performance_cache } := by
  unfold applyAdd add_interaction
  rw [h]

theorem applyAdd_not_found (cm : ConversationMemory) (c : AddCall)
    (h : dictGet cm.sessions c.session_id = none) : applyAdd cm c = cm := by
  unfold applyAdd add_interaction
  rw [h]

theorem applyAdd_max (cm : ConversationMemory) (c : AddCall) :
    (applyAdd cm c).max_interactions_per_session =
      cm.max_interactions_per_session := by
  cases h : dictGet cm.sessions c.session_id
  · rw [applyAdd_not_found _ _ h]
  · rw [applyAdd_ok _ _ _ h]

/-! ### Claim C1, amended part -/

theorem boundInv_applyAdd (cm : ConversationMemory) (c : AddCall)
    (h2 : 2 ≤ cm.max_interactions_per_session) (hinv : boundInv cm) :
    boundInv (applyAdd cm c) := by
  cases h : dictGet cm.sessions c.session_id with
  | none => rw [applyAdd_not_found _ _ h]; exact hinv
  | some sm =>
    rw [applyAdd_ok _ _ _ h]
    intro p hp
    dsimp only at hp ⊢
    rcases mem_dictSet _ _ _ p hp with hmem | heq
    · exact hinv p hmem
    · rw [heq]
      exact manage_length_le _ _ h2

/-- C1 amended: whenever `max_interactions_per_session ≥ 2` (so in
particular at the shipped default of 100), every store satisfying the bound
still satisfies it after any sequence of `add_interaction` calls — and
since every intermediate state is itself `runAdds` of a prefix, the bound
holds immediately after each call returns.  (The un-amended claim fails at
`max_interactions_per_session ∈ {0, 1}`, where `keep_count = max // 2 = 0`
makes the enforcing slice keep everything; see the counterexample.) -/
theorem claim_C1_amended (cm : ConversationMemory) (calls : List AddCall)
    (h2 : 2 ≤ cm.max_interactions_per_session) (hinv : boundInv cm) :
    boundInv (runAdds cm calls) := by
  induction calls generalizing cm with
  | nil => exact hinv
  | cons c rest ih =>
    rw [runAdds_cons]
    exact ih (applyAdd cm c)
      (by rw [applyAdd_max]; exact h2)
      (boundInv_applyAdd cm c h2 hinv)

/-- C1 amended, witnessed on the default-configured demo store and two
further calls. -/
theorem claim_C1_amended_witness :
    2 ≤ searchDemoStore.max_interactions_per_session ∧
    boundInv searchDemoStore ∧
    boundInv (runAdds searchDemoStore demoCalls) :=
  ⟨by decide, by decide,
   claim_C1_amended searchDemoStore demoCalls (by decide) (by decide)⟩

/-! ### Claim C6 -/

theorem subset_foldl_cover : ∀ (ts acc : List String),
    acc ⊆ ts.foldl (fun acc t => if t ∈ acc then acc else acc ++ [t]) acc := by
  intro ts
  induction ts with
  | nil => intro acc; exact List.Subset.refl _
  | cons t rest ih =>
    intro acc
    rw [List.foldl_cons]
    refine List.Subset.trans ?_ (ih _)
    by_cases h : t ∈ acc
    · rw [if_pos h]
      exact List.Subset.refl _
    · rw [if_neg h]
      exact List.subset_append_left _ _

theorem subset_updateCovered (cov : List String) (o : Option (List String)) :
    cov ⊆ updateCovered cov o := by
  unfold updateCovered
  rcases o with _ | ts
  · exact List.Subset.refl _
  · dsimp only
    by_cases h : ts = []
    · rw [if_pos h]
      exact List.Subset.refl _
    · rw [if_neg h]
      exact subset_foldl_cover ts cov

theorem foldl_cover_toFinset : ∀ (ts acc : List String),
    (ts.foldl (fun acc t => if t ∈ acc then acc else acc ++ [t]) acc).toFinset
      = acc.toFinset ∪ ts.toFinset := by
  intro ts
  induction ts with
  | nil => intro acc; simp
  | cons t rest ih =>
    intro acc
    rw [List.foldl_cons]
    by_cases h : t ∈ acc
    · rw [if_pos h, ih]
      ext x
      simp only [Finset.mem_union, List.mem_toFinset, List.toFinset_cons,
        Finset.mem_insert]
      constructor
      · rintro (hx | hx)
        · exact Or.inl hx
        · exact Or.inr (Or.inr hx)
      · rintro (hx | hx | hx)
        · exact Or.inl hx
        · exact Or.inl (hx ▸ h)
        · exact Or.inr hx
    · rw [if_neg h, ih]
      ext x
      simp only [Finset.mem_union, List.mem_toFinset, List.toFinset_cons,
        Finset.mem_insert, List.mem_append, List.mem_singleton]
      tauto

theorem updateCovered_toFinset (cov : List String) (o : Option (List String)) :
    (updateCovered cov o).toFinset = cov.toFinset ∪ (o.getD []).toFinset := by
  unfold updateCovered
  rcases o with _ | ts
  · simp
  · dsimp only [Option.getD_some]
    by_cases h : ts = []
    · rw [if_pos h]
      simp [h]
    · rw [if_neg h]
      exact foldl_cover_toFinset ts cov

theorem coveredOf_applyAdd_ne (cm : ConversationMemory) (c : AddCall) (sid : Nat)
    (hne : c.session_id ≠ sid) :
    coveredOf (applyAdd cm c) sid = coveredOf cm sid := by
  cases h : dictGet cm.sessions c.session_id
  · rw [applyAdd_not_found _ _ h]
  · rw [applyAdd_ok _ _ _ h]
    unfold coveredOf
    dsimp only
    rw [dictGet_dictSet_ne _ _ _ _ hne]

theorem coveredOf_subset_applyAdd (cm : ConversationMemory) (c : AddCall)
    (sid : Nat) : coveredOf cm sid ⊆ coveredOf (applyAdd cm c) sid := by
  by_cases hid : c.session_id = sid
  · subst hid
    cases h : dictGet cm.sessions c.session_id with
    | none =>
      rw [applyAdd_not_found _ _ h]
      exact List.Subset.refl _
    | some sm =>
      have h2 : dictGet (applyAdd cm c).sessions c.session_id =
          some (manageMemorySize cm.max_interactions_per_session
            (addToSession sm c.args c.now)) := by
        rw [applyAdd_ok _ _ _ h]
        exact dictGet_dictSet_self _ _ _
      rw [coveredOf_some _ _ _ h, coveredOf_some _ _ _ h2, manage_covered,
        addToSession_covered]
      exact subset_updateCovered _ _
  · rw [coveredOf_applyAdd_ne _ _ _ hid]
    exact List.Subset.refl _

theorem coveredOf_subset_runAdds (sid : Nat) :
    ∀ (extra : List AddCall) (cm : ConversationMemory),
    coveredOf cm sid ⊆ coveredOf (runAdds cm extra) sid := by
  intro extra
  induction extra with
  | nil => intro cm; exact List.Subset.refl _
  | cons c rest ih =>
    intro cm
    rw [runAdds_cons]
    exact List.Subset.trans (coveredOf_subset_applyAdd cm c sid) (ih _)

theorem coveredOf_toFinset_runAdds (sid : Nat) :
    ∀ (calls : List AddCall) (cm : ConversationMemory) (sm : SessionMemory),
    dictGet cm.sessions sid = some sm →
    (coveredOf (runAdds cm calls) sid).toFinset =
      sm.covered_topics.toFinset ∪ topicsUnion sid calls := by
  intro calls
  induction calls with
  | nil =>
    intro cm sm h
    simp [runAdds, coveredOf, h, topicsUnion]
  | cons c rest ih =>
    intro cm sm h
    rw [runAdds_cons]
    by_cases hid : c.session_id = sid
    · subst hid
      have h2 : dictGet (applyAdd cm c).sessions c.session_id =
          some (manageMemorySize cm.max_interactions_per_session
            (addToSession sm c.args c.now)) := by
        rw [applyAdd_ok _ _ _ h]
        exact dictGet_dictSet_self _ _ _
      rw [ih _ _ h2, manage_covered, addToSession_covered, updateCovered_toFinset]
      simp [topicsUnion, Finset.union_assoc]
    · have h2 : dictGet (applyAdd cm c).sessions sid = some sm := by
        cases hc : dictGet cm.sessions c.session_id
        · rw [applyAdd_not_found _ _ hc]
          exact h
        · rw [applyAdd_ok _ _ _ hc]
          dsimp only
          rw [dictGet_dictSet_ne _ _ _ _ hid]
          exact h
      rw [ih _ _ h2]
      simp [topicsUnion, hid]

/-- C6: across any sequence of `add_interaction` calls (including those
that trigger eviction) the covered-topic list of a session never shrinks —
after further calls every previously covered topic is still covered — and
starting from a freshly initialized session, the covered-topic set equals
the union of every topic label ever passed for that session. -/
theorem claim_C6_coverage (cm : ConversationMemory) (session_id : Nat)
    (topic : String) (difficulty : DifficultyLevel) (t0 : Int)
    (calls extra : List AddCall) :
    coveredOf (runAdds cm calls) session_id ⊆
      coveredOf (runAdds cm (calls ++ extra)) session_id ∧
    (coveredOf (runAdds (init_session cm session_id topic difficulty t0) calls)
        session_id).toFinset = topicsUnion session_id calls := by
  constructor
  · rw [runAdds_append]
    exact coveredOf_subset_runAdds session_id extra _
  · rw [coveredOf_toFinset_runAdds session_id calls _ _ (dictGet_dictSet_self _ _ _)]
    simp

/-! ### Claim C2 -/

theorem foldTopics_eq : ∀ (l : List InteractionMemory) (acc : List String),
    l.foldl (fun acc i =>
        if i.topics_covered ≠ [] then acc ++ i.topics_covered else acc) acc
      = acc ++ (l.map (fun i => i.topics_covered)).join := by
  intro l
  induction l with
  | nil => intro acc; simp
  | cons i rest ih =>
    intro acc
    rw [List.foldl_cons]
    by_cases h : i.topics_covered = []
    · rw [if_neg (by simp [h]), ih]
      simp [h]
    · rw [if_pos h, ih]
      simp [List.append_assoc]

theorem foldQTypes_eq : ∀ (l : List InteractionMemory) (acc : List String),
    l.foldl (fun acc i =>
        if i.question_type ≠ "" then acc ++ [i.question_type] else acc) acc
      = acc ++ l.filterMap
          (fun i => if i.question_type = "" then none else some i.question_type) := by
  intro l
  induction l with
  | nil => intro acc; simp
  | cons i rest ih =>
    intro acc
    rw [List.foldl_cons]
    by_cases h : i.question_type = ""
    · rw [if_neg (by simp [h]), ih, List.filterMap_cons, if_pos h]
    · rw [if_pos h, ih, List.filterMap_cons, if_neg h]
      simp [List.append_assoc]

theorem foldEvalCount_eq : ∀ (l : List InteractionMemory) (n : Nat),
    l.foldl (fun acc i => if pyTruthyEval i.evaluation then acc + 1 else acc) n
      = n + l.countP (fun i => pyTruthyEval i.evaluation) := by
  intro l
  induction l with
  | nil => intro n; simp
  | cons i rest ih =>
    intro n
    rw [List.foldl_cons, List.countP_cons]
    by_cases h : pyTruthyEval i.evaluation = true
    · rw [if_pos h, ih, if_pos h]
      omega
    · rw [if_neg h, ih, if_neg h]
      omega

theorem summarize_eq (first : InteractionMemory) (rest : List InteractionMemory) :
    summarizeInteractions (first :: rest) =
      ContextSummary.summary (first :: rest).length first.timestamp
        (List.getLast (first :: rest) (List.cons_ne_nil first rest)).timestamp
        (pySetList (((first :: rest).map (fun i => i.topics_covered)).join))
        (pySetList ((first :: rest).filterMap
          (fun i => if i.question_type = "" then none else some i.question_type)))
        ((first :: rest).countP (fun i => pyTruthyEval i.evaluation)) := by
  unfold summarizeInteractions
  dsimp only
  rw [foldTopics_eq, foldQTypes_eq, foldEvalCount_eq]
  simp

theorem foldAdd_interactions : ∀ (calls : List AddCall) (sm : SessionMemory),
    (calls.foldl (fun s c => addToSession s c.args c.now) sm).interactions =
      sm.interactions ++ calls.map (fun c => mkInteraction c.now c.args) := by
  intro calls
  induction calls with
  | nil => intro sm; simp
  | cons c rest ih =>
    intro sm
    rw [List.foldl_cons, ih, addToSession_interactions, List.map_cons,
      List.append_assoc, List.singleton_append]

theorem foldAdd_summary : ∀ (calls : List AddCall) (sm : SessionMemory),
    (calls.foldl (fun s c => addToSession s c.args c.now) sm).context_summary =
      sm.context_summary := by
  intro calls
  induction calls with
  | nil => intro sm; rfl
  | cons c rest ih =>
    intro sm
    rw [List.foldl_cons, ih, addToSession_summary]

theorem manage_evict (maxN : Nat) (sm : SessionMemory)
    (h : sm.interactions.length > maxN) :
    manageMemorySize maxN sm =
      { sm with
        context_summary :=
          summarizeInteractions (sliceToNegIdx sm.interactions (maxN / 2))
        interactions := sliceFromNegIdx sm.interactions (maxN / 2) } := by
  unfold manageMemorySize
  rw [if_pos h]

theorem runAdds_no_evict (sid : Nat) :
    ∀ (calls : List AddCall) (cm : ConversationMemory) (sm : SessionMemory),
    dictGet cm.sessions sid = some sm →
    (∀ c ∈ calls, c.session_id = sid) →
    sm.interactions.length + calls.length ≤ cm.max_interactions_per_session →
    dictGet (runAdds cm calls).sessions sid =
      some (calls.foldl (fun s c => addToSession s c.args c.now) sm) ∧
    (runAdds cm calls).max_interactions_per_session =
      cm.max_interactions_per_session := by
  intro calls
  induction calls with
  | nil =>
    intro cm sm h _ _
    exact ⟨h, rfl⟩
  | cons c rest ih =>
    intro cm sm h hall hlen
    have hcid : c.session_id = sid := hall c (List.mem_cons_self _ _)
    have hlist : (c :: rest).length = rest.length + 1 := by simp
    have hmax := applyAdd_max cm c
    have hadd : dictGet cm.sessions c.session_id = some sm := by rw [hcid]; exact h
    have hlen1 : (addToSession sm c.args c.now).interactions.length ≤
        cm.max_interactions_per_session := by
      rw [addToSession_interactions]
      simp only [List.length_append, List.length_cons, List.length_nil]
      omega
    have hstep : dictGet (applyAdd cm c).sessions sid =
        some (addToSession sm c.args c.now) := by
      rw [applyAdd_ok _ _ _ hadd, manage_of_le _ _ hlen1]
      dsimp only
      rw [hcid]
      exact dictGet_dictSet_self _ _ _
    rw [runAdds_cons, List.foldl_cons]
    refine (ih (applyAdd cm c) (addToSession sm c.args c.now) hstep
      (fun c2 hc2 => hall c2 (List.mem_cons_of_mem _ hc2)) ?_).imp id ?_
    · rw [hmax, addToSession_interactions]
      simp only [List.length_append, List.length_cons, List.length_nil]
      omega
    · intro h2
      rw [h2, hmax]

set_option maxHeartbeats 2000000 in
/-- C2: starting from a fresh session in a store configured with
`max_interactions_per_session = 10`, after any 11 `add_interaction` calls
on that session exactly the 5 most recent interactions remain
(`keep_count = 10 // 2`), and the context summary is the summary of the
evicted 6-interaction prefix: `summarized_interactions = 6`, the prefix's
first and last timestamps, its distinct topics, its distinct question
kinds, and the count of its truthy evaluations. -/
theorem claim_C2_eviction (session_id : Nat) (topic : String)
    (difficulty : DifficultyLevel) (t0 : Int)
    (a1 a2 a3 a4 a5 a6 a7 a8 a9 a10 a11 : AddArgs)
    (n1 n2 n3 n4 n5 n6 n7 n8 n9 n10 n11 : Int) :
    ∃ sm, dictGet (runAdds
        (init_session { max_interactions_per_session := 10 } session_id topic
          difficulty t0)
        [⟨session_id, a1, n1⟩, ⟨session_id, a2, n2⟩, ⟨session_id, a3, n3⟩,
         ⟨session_id, a4, n4⟩, ⟨session_id, a5, n5⟩, ⟨session_id, a6, n6⟩,
         ⟨session_id, a7, n7⟩, ⟨session_id, a8, n8⟩, ⟨session_id, a9, n9⟩,
         ⟨session_id, a10, n10⟩, ⟨session_id, a11, n11⟩]).sessions session_id
      = some sm ∧
    sm.interactions =
      [mkInteraction n7 a7, mkInteraction n8 a8, mkInteraction n9 a9,
       mkInteraction n10 a10, mkInteraction n11 a11] ∧
    sm.interactions.length = 5 ∧
    sm.context_summary = summarizeInteractions
      [mkInteraction n1 a1, mkInteraction n2 a2, mkInteraction n3 a3,
       mkInteraction n4 a4, mkInteraction n5 a5, mkInteraction n6 a6] ∧
    sm.context_summary = ContextSummary.summary 6 (a1.timestamp.getD n1)
      (a6.timestamp.getD n6)
      (pySetList (([mkInteraction n1 a1, mkInteraction n2 a2, mkInteraction n3 a3,
        mkInteraction n4 a4, mkInteraction n5 a5, mkInteraction n6 a6].map
          (fun i => i.topics_covered)).join))
      (pySetList ([mkInteraction n1 a1, mkInteraction n2 a2, mkInteraction n3 a3,
        mkInteraction n4 a4, mkInteraction n5 a5, mkInteraction n6 a6].filterMap
          (fun i => if i.question_type = "" then none else some i.question_type)))
      ([mkInteraction n1 a1, mkInteraction n2 a2, mkInteraction n3 a3,
        mkInteraction n4 a4, mkInteraction n5 a5,
        mkInteraction n6 a6].countP (fun i => pyTruthyEval i.evaluation)) := by
  have h0 : dictGet (init_session { max_interactions_per_session := 10 } session_id
      topic difficulty t0).sessions session_id =
      some { session_id := session_id, topic := topic, difficulty := difficulty,
             start_time := t0, interactions := [] } :=
    dictGet_dictSet_self _ _ _
  have hall : ∀ c ∈ ([⟨session_id, a1, n1⟩, ⟨session_id, a2, n2⟩,
      ⟨session_id, a3, n3⟩, ⟨session_id, a4, n4⟩, ⟨session_id, a5, n5⟩,
      ⟨session_id, a6, n6⟩, ⟨session_id, a7, n7⟩, ⟨session_id, a8, n8⟩,
      ⟨session_id, a9, n9⟩, ⟨session_id, a10, n10⟩] : List AddCall),
      c.session_id = session_id := by
    intro c hc
    simp only [List.mem_cons, List.not_mem_nil, or_false] at hc
    rcases hc with rfl | rfl | rfl | rfl | rfl | rfl | rfl | rfl | rfl | rfl <;> rfl
  obtain ⟨hrun, hmax⟩ := runAdds_no_evict session_id
    [⟨session_id, a1, n1⟩, ⟨session_id, a2, n2⟩, ⟨session_id, a3, n3⟩,
     ⟨session_id, a4, n4⟩, ⟨session_id, a5, n5⟩, ⟨session_id, a6, n6⟩,
     ⟨session_id, a7, n7⟩, ⟨session_id, a8, n8⟩, ⟨session_id, a9, n9⟩,
     ⟨session_id, a10, n10⟩]
    (init_session { max_interactions_per_session := 10 } session_id topic
      difficulty t0)
    { session_id := session_id, topic := topic, difficulty := difficulty,
      start_time := t0, interactions := [] }
    h0 hall (by norm_num [init_session])
  have hF := foldAdd_interactions
    [⟨session_id, a1, n1⟩, ⟨session_id, a2, n2⟩, ⟨session_id, a3, n3⟩,
     ⟨session_id, a4, n4⟩, ⟨session_id, a5, n5⟩, ⟨session_id, a6, n6⟩,
     ⟨session_id, a7, n7⟩, ⟨session_id, a8, n8⟩, ⟨session_id, a9, n9⟩,
     ⟨session_id, a10, n10⟩]
    { session_id := session_id, topic := topic, difficulty := difficulty,
      start_time := t0, interactions := [] }
  simp only [List.map_cons, List.map_nil, List.nil_append] at hF
  have hsplit : ([⟨session_id, a1, n1⟩, ⟨session_id, a2, n2⟩, ⟨session_id, a3, n3⟩,
      ⟨session_id, a4, n4⟩, ⟨session_id, a5, n5⟩, ⟨session_id, a6, n6⟩,
      ⟨session_id, a7, n7⟩, ⟨session_id, a8, n8⟩, ⟨session_id, a9, n9⟩,
      ⟨session_id, a10, n10⟩, ⟨session_id, a11, n11⟩] : List AddCall) =
      [⟨session_id, a1, n1⟩, ⟨session_id, a2, n2⟩, ⟨session_id, a3, n3⟩,
       ⟨session_id, a4, n4⟩, ⟨session_id, a5, n5⟩, ⟨session_id, a6, n6⟩,
       ⟨session_id, a7, n7⟩, ⟨session_id, a8, n8⟩, ⟨session_id, a9, n9⟩,
       ⟨session_id, a10, n10⟩] ++ [⟨session_id, a11, n11⟩] := rfl
  rw [hsplit, runAdds_append]
  set F := ([⟨session_id, a1, n1⟩, ⟨session_id, a2, n2⟩, ⟨session_id, a3, n3⟩,
      ⟨session_id, a4, n4⟩, ⟨session_id, a5, n5⟩, ⟨session_id, a6, n6⟩,
      ⟨session_id, a7, n7⟩, ⟨session_id, a8, n8⟩, ⟨session_id, a9, n9⟩,
      ⟨session_id, a10, n10⟩] : List AddCall).foldl
      (fun s c => addToSession s c.args c.now)
      { session_id := session_id, topic := topic, difficulty := difficulty,
        start_time := t0, interactions := [] } with hFdef
  have haint : (addToSession F a11 n11).interactions =
      [mkInteraction n1 a1, mkInteraction n2 a2, mkInteraction n3 a3,
       mkInteraction n4 a4, mkInteraction n5 a5, mkInteraction n6 a6,
       mkInteraction n7 a7, mkInteraction n8 a8, mkInteraction n9 a9,
       mkInteraction n10 a10, mkInteraction n11 a11] := by
    rw [addToSession_interactions, hF]
    rfl
  have h11 : dictGet (runAdds (init_session { max_interactions_per_session := 10 }
      session_id topic difficulty t0)
      [⟨session_id, a1, n1⟩, ⟨session_id, a2, n2⟩, ⟨session_id, a3, n3⟩,
       ⟨session_id, a4, n4⟩, ⟨session_id, a5, n5⟩, ⟨session_id, a6, n6⟩,
       ⟨session_id, a7, n7⟩, ⟨session_id, a8, n8⟩, ⟨session_id, a9, n9⟩,
       ⟨session_id, a10, n10⟩]).sessions session_id = some F := hrun
  rw [runAdds_cons, runAdds_nil, applyAdd_ok _ _ _ h11, hmax]
  have hevict : manageMemorySize 10 (addToSession F a11 n11) =
      { addToSession F a11 n11 with
        context_summary := summarizeInteractions
          (sliceToNegIdx (addToSession F a11 n11).interactions 5)
        interactions := sliceFromNegIdx (addToSession F a11 n11).interactions 5 } :=
    manage_evict 10 _ (by rw [haint]; simp)
  refine ⟨manageMemorySize 10 (addToSession F a11 n11), ?_, ?_, ?_, ?_, ?_⟩
  · dsimp only
    exact dictGet_dictSet_self _ _ _
  · rw [hevict]
    dsimp only
    rw [haint]
    simp [sliceFromNegIdx]
  · rw [hevict]
    dsimp only
    rw [haint]
    simp [sliceFromNegIdx]
  · rw [hevict]
    dsimp only
    rw [haint]
    norm_num [sliceToNegIdx]
  · rw [hevict]
    dsimp only
    rw [haint]
    have h6 : sliceToNegIdx
        [mkInteraction n1 a1, mkInteraction n2 a2, mkInteraction n3 a3,
         mkInteraction n4 a4, mkInteraction n5 a5, mkInteraction n6 a6,
         mkInteraction n7 a7, mkInteraction n8 a8, mkInteraction n9 a9,
         mkInteraction n10 a10, mkInteraction n11 a11] 5 =
        [mkInteraction n1 a1, mkInteraction n2 a2, mkInteraction n3 a3,
         mkInteraction n4 a4, mkInteraction n5 a5, mkInteraction n6 a6] := by
      norm_num [sliceToNegIdx]
    rw [h6, summarize_eq]
    norm_num [mkInteraction, List.getLast]

end SDCoach
